import Mathlib

/-!
Shallow embedding of `kollacli/ansible/inventory.py` (python-kollaclient).

Python dicts are modelled as insertion-ordered association lists
(`List (String × α)`): assignment updates the first matching key in place
or appends a fresh key at the end; deletion removes the first matching
entry; lookup returns the first match; iteration follows list order.
Python exceptions (`CommandError`) are modelled with
`Except (String × Inventory) _`: an error carries the message and the
state of the inventory at raise time (in this module every raise happens
before any mutation, so that state is always the entry state).
-/

set_option autoImplicit false
set_option maxRecDepth 100000

namespace Kolla

/-- Python dict lookup `d[k]` / `d.get(k)`: first entry with the key. -/
def pyGet {α : Type} : List (String × α) → String → Option α
  | [], _ => none
  | (k', v) :: rest, k => if k' = k then some v else pyGet rest k

/-- Python dict membership `k in d`. -/
def pyMem {α : Type} (d : List (String × α)) (k : String) : Bool :=
  (pyGet d k).isSome

/-- Python dict assignment `d[k] = v`: update in place if the key exists,
else append at the end (insertion order preserved). -/
def pySet {α : Type} : List (String × α) → String → α → List (String × α)
  | [], k, v => [(k, v)]
  | (k', v') :: rest, k, v =>
      if k' = k then (k, v) :: rest else (k', v') :: pySet rest k v

/-- Python dict deletion `del d[k]`: remove the first entry with the key. -/
def pyDel {α : Type} : List (String × α) → String → List (String × α)
  | [], _ => []
  | (k', v') :: rest, k =>
      if k' = k then rest else (k', v') :: pyDel rest k

/-- Python `d.keys()` (Python 2: a list snapshot, in insertion order). -/
def pyKeys {α : Type} (d : List (String × α)) : List String :=
  d.map Prod.fst

/-- Python `d.values()` in insertion order. -/
def pyVals {α : Type} (d : List (String × α)) : List α :=
  d.map Prod.snd

/-! Static module-level configuration of `inventory.py`. -/

def ANSIBLE_SSH_USER : String := "ansible_ssh_user"

def ANSIBLE_CONNECTION : String := "ansible_connection"

def ANSIBLE_BECOME : String := "ansible_become"

def COMPUTE_GRP_NAME : String := "compute"

def CONTROL_GRP_NAME : String := "control"

def NETWORK_GRP_NAME : String := "network"

def STORAGE_GRP_NAME : String := "storage"

def DATABASE_GRP_NAME : String := "database"

def DEPLOY_GROUPS : List String :=
  [COMPUTE_GRP_NAME, CONTROL_GRP_NAME, NETWORK_GRP_NAME,
   STORAGE_GRP_NAME, DATABASE_GRP_NAME]

/-- The static service catalog `SERVICES` (a dict literal: insertion order
is the source order). -/
def SERVICES : List (String × List String) :=
  [("cinder", ["cinder-api", "cinder-scheduler", "cinder-backup",
               "cinder-volume"]),
   ("glance", ["glance-api", "glance-registry"]),
   ("haproxy", []),
   ("heat", ["heat-api", "heat-api-cfn", "heat-engine"]),
   ("horizon", []),
   ("keystone", []),
   ("memcached", []),
   ("murano", ["murano-api", "murano-engine"]),
   ("mysqlcluster", ["mysqlcluster-api", "mysqlcluster-mgmt",
                     "mysqlcluster-ndb"]),
   ("neutron", ["neutron-server", "neutron-agents"]),
   ("nova", ["nova-api", "nova-conductor", "nova-consoleauth",
             "nova-novncproxy", "nova-scheduler"]),
   ("rabbitmq", []),
   ("swift", ["swift-proxy-server", "swift-account-server",
              "swift-container-server", "swift-object-server"])]

def DEFAULT_GROUPS : List (String × String) :=
  [("cinder", CONTROL_GRP_NAME),
   ("glance", CONTROL_GRP_NAME),
   ("haproxy", CONTROL_GRP_NAME),
   ("heat", CONTROL_GRP_NAME),
   ("horizon", CONTROL_GRP_NAME),
   ("keystone", CONTROL_GRP_NAME),
   ("memcached", CONTROL_GRP_NAME),
   ("murano", CONTROL_GRP_NAME),
   ("mysqlcluster", CONTROL_GRP_NAME),
   ("neutron", NETWORK_GRP_NAME),
   ("nova", CONTROL_GRP_NAME),
   ("rabbitmq", CONTROL_GRP_NAME),
   ("swift", CONTROL_GRP_NAME)]

def DEFAULT_OVERRIDES : List (String × String) :=
  [("cinder-backup", STORAGE_GRP_NAME),
   ("cinder-volume", STORAGE_GRP_NAME),
   ("mysqlcluster-ndb", DATABASE_GRP_NAME),
   ("neutron-server", CONTROL_GRP_NAME),
   ("swift-account-server", STORAGE_GRP_NAME),
   ("swift-container-server", STORAGE_GRP_NAME),
   ("swift-object-server", STORAGE_GRP_NAME)]

def PROTECTED_GROUPS : List String := [COMPUTE_GRP_NAME]

/-- Modelled from the spec: `kollacli.utils.get_admin_user` (the module
`kollacli/utils.py` is not under src/). It returns the configured
admin user name, a value that is fixed for the whole process; it is
modelled as a fixed string. -/
def get_admin_user : String := "kolla"

/-! Entity classes. -/

structure Host where
  name : String
  alias_name : String := ""
  is_mgmt : Bool := false
  hypervisor : String := ""
  vars : List (String × String) := []
  deriving Repr, DecidableEq

/-- Python `Host(hostname)`. -/
def Host.new (hostname : String) : Host := { name := hostname }

/-- Python `Host.get_vars` (returns a copy; copies are value-equal here). -/
def Host.get_vars (h : Host) : List (String × String) := h.vars

structure HostGroup where
  name : String
  hostnames : List String := []
  vars : List (String × String) := []
  deriving Repr, DecidableEq

/-- Python `HostGroup(name)`. -/
def HostGroup.new (name : String) : HostGroup := { name := name }

def HostGroup.add_host (g : HostGroup) (host : Host) : HostGroup :=
  if host.name ∈ g.hostnames then g
  else { g with hostnames := g.hostnames ++ [host.name] }

def HostGroup.remove_host (g : HostGroup) (host : Host) : HostGroup :=
  if host.name ∈ g.hostnames then
    { g with hostnames := g.hostnames.erase host.name }
  else g

def HostGroup.get_hostnames (g : HostGroup) : List String := g.hostnames

def HostGroup.get_vars (g : HostGroup) : List (String × String) := g.vars

def HostGroup.set_var (g : HostGroup) (name value : String) : HostGroup :=
  { g with vars := pySet g.vars name value }

def HostGroup.clear_var (g : HostGroup) (name : String) : HostGroup :=
  if pyMem g.vars name then { g with vars := pyDel g.vars name } else g

def HostGroup.set_remote (g : HostGroup) (remote_flag : Bool) : HostGroup :=
  let g := g.set_var ANSIBLE_BECOME "yes"
  if remote_flag then
    (g.set_var ANSIBLE_SSH_USER get_admin_user).clear_var ANSIBLE_CONNECTION
  else
    (g.set_var ANSIBLE_CONNECTION "local").clear_var ANSIBLE_SSH_USER

structure Service where
  name : String
  sub_servicenames : List String := []
  groupnames : List String := []
  vars : List (String × String) := []
  deriving Repr, DecidableEq

/-- Python `Service(name)`. -/
def Service.new (name : String) : Service := { name := name }

/-- Python `Service.add_groupname` (the `groupname is not None` guard is
vacuous here since group names are plain strings). -/
def Service.add_groupname (s : Service) (groupname : String) : Service :=
  if groupname ∈ s.groupnames then s
  else { s with groupnames := s.groupnames ++ [groupname] }

def Service.remove_groupname (s : Service) (groupname : String) : Service :=
  if groupname ∈ s.groupnames then
    { s with groupnames := s.groupnames.erase groupname }
  else s

def Service.get_groupnames (s : Service) : List String := s.groupnames

def Service.add_sub_servicename (s : Service) (sub : String) : Service :=
  if sub ∈ s.sub_servicenames then s
  else { s with sub_servicenames := s.sub_servicenames ++ [sub] }

structure SubService where
  name : String
  groupnames : List String := []
  parent_servicename : Option String := none
  vars : List (String × String) := []
  deriving Repr, DecidableEq

/-- Python `SubService(name)`: groups and parent services are mutually
exclusive. -/
def SubService.new (name : String) : SubService := { name := name }

def SubService.add_groupname (s : SubService) (groupname : String) :
    SubService :=
  if groupname ∈ s.groupnames then s
  else { s with groupnames := s.groupnames ++ [groupname],
                parent_servicename := none }

def SubService.set_parent_servicename (s : SubService)
    (parent_svc_name : String) : SubService :=
  { s with parent_servicename := some parent_svc_name, groupnames := [] }

def SubService.get_parent_service_name (s : SubService) : Option String :=
  s.parent_servicename

/-- The catalog lookup loop inside `SubService.remove_groupname`:
the first service of `SERVICES` (in source order) listing this
sub-service name, if any. -/
def catalog_parent (name : String) : Option String :=
  (SERVICES.find? (fun p => name ∈ p.2)).map Prod.fst

def SubService.remove_groupname (s : SubService) (groupname : String) :
    SubService :=
  let s :=
    if groupname ∈ s.groupnames then
      { s with groupnames := s.groupnames.erase groupname }
    else s
  if s.groupnames = [] then
    match catalog_parent s.name with
    | some servicename => s.set_parent_servicename servicename
    | none => s
  else s

def SubService.get_groupnames (s : SubService) : List String := s.groupnames

/-- Python dict in-place update of the entry under a key (mutating the
object stored in the dict, as `self._services[name].method()` does). -/
def pyUpd {α : Type} : List (String × α) → String → (α → α) →
    List (String × α)
  | [], _, _ => []
  | (k', v) :: rest, k, f =>
      if k' = k then (k', f v) :: rest else (k', v) :: pyUpd rest k f

/-- The Inventory aggregate (field order as in `Inventory.__init__`). -/
structure Inventory where
  groups : List (String × HostGroup) := []
  hosts : List (String × Host) := []
  services : List (String × Service) := []
  sub_services : List (String × SubService) := []
  vars : List (String × String) := []
  version : Nat := 1
  remote_mode : Bool := true
  deriving Repr, DecidableEq

/-- The state of `Inventory.__init__` just before
`_create_default_inventory` runs. -/
def Inventory.base : Inventory := {}

def Inventory.get_hostnames (inv : Inventory) : List String :=
  pyKeys inv.hosts

def Inventory.get_host (inv : Inventory) (hostname : String) : Option Host :=
  pyGet inv.hosts hostname

def Inventory.get_groupnames (inv : Inventory) : List String :=
  pyKeys inv.groups

def Inventory.get_group (inv : Inventory) (groupname : String) :
    Option HostGroup :=
  pyGet inv.groups groupname

/-- Mutate the service object stored under a key (Python aliasing:
`svc = self.get_service(name); svc.method()`). -/
def pyUpdServices (inv : Inventory) (name : String) (f : Service → Service) :
    Inventory :=
  { inv with services := pyUpd inv.services name f }

/-- Mutate the sub-service object stored under a key. -/
def pyUpdSubs (inv : Inventory) (name : String) (f : SubService → SubService) :
    Inventory :=
  { inv with sub_services := pyUpd inv.sub_services name f }

def Inventory.add_host (inv : Inventory) (hostname : String)
    (groupname : Option String := none) :
    Except (String × Inventory) Inventory :=
  match groupname with
  | some g =>
      if ¬ pyMem inv.groups g then
        .error ("Group name (" ++ g ++ ") does not exist", inv)
      else if ¬ pyMem inv.hosts hostname then
        .error ("Host name (" ++ hostname ++ ") does not exist", inv)
      else
        -- the host exists, so the `elif groupname:` branch runs
        let host := Host.new hostname
        .ok { inv with groups := pyUpd inv.groups g (fun group =>
                if hostname ∈ group.get_hostnames then group
                else group.add_host host) }
  | none =>
      if ¬ inv.remote_mode ∧ inv.hosts.length ≥ 1 then
        .error ("Cannot have more than one host when in local deploy mode",
                inv)
      else if ¬ pyMem inv.hosts hostname then
        .ok { inv with hosts := pySet inv.hosts hostname (Host.new hostname) }
      else
        .ok inv

def Inventory.remove_host (inv : Inventory) (hostname : String)
    (groupname : Option String := none) :
    Except (String × Inventory) Inventory :=
  let bad : Bool := match groupname with
    | some g => ¬ pyMem inv.groups g
    | none => false
  if bad then
    .error ("Group name (" ++ groupname.getD "" ++ ") does not exist", inv)
  else if ¬ pyMem inv.hosts hostname then
    .ok inv
  else
    let host := (pyGet inv.hosts hostname).getD (Host.new hostname)
    let selected : HostGroup → Bool := fun grp =>
      decide (host.name ∈ grp.get_hostnames) &&
        (match groupname with
         | none => true
         | some g => decide (g = grp.name))
    let groups := inv.groups.map (fun p =>
      if selected p.2 then (p.1, p.2.remove_host host) else p)
    let hosts := match groupname with
      | none => pyDel inv.hosts hostname
      | some _ => inv.hosts
    .ok { inv with groups := groups, hosts := hosts }

/-- Python `Inventory.add_group`; returns the (created or existing) group
object after `set_remote`, alongside the new aggregate state. -/
def Inventory.add_group (inv : Inventory) (groupname : String) :
    Except (String × Inventory) (Inventory × HostGroup) :=
  if pyMem inv.services groupname ∨ pyMem inv.sub_services groupname then
    .error
      ("Invalid group name. A service name cannot be used for a group name.",
       inv)
  else
    let inv' :=
      if ¬ pyMem inv.groups groupname then
        { inv with groups := pySet inv.groups groupname
                     (HostGroup.new groupname) }
      else inv
    let group :=
      ((pyGet inv'.groups groupname).getD
        (HostGroup.new groupname)).set_remote inv'.remote_mode
    .ok ({ inv' with groups := pySet inv'.groups groupname group }, group)

def Inventory.remove_group (inv : Inventory) (groupname : String) :
    Except (String × Inventory) Inventory :=
  if groupname ∈ PROTECTED_GROUPS then
    .error ("Cannot remove " ++ groupname ++ " group. " ++
            "It is required by kolla.", inv)
  else
    .ok { inv with
      services := inv.services.map
        (fun p => (p.1, p.2.remove_groupname groupname)),
      sub_services := inv.sub_services.map
        (fun p => (p.1, p.2.remove_groupname groupname)),
      groups :=
        if pyMem inv.groups groupname then pyDel inv.groups groupname
        else inv.groups }

def Inventory.create_service (inv : Inventory) (servicename : String) :
    Inventory :=
  if ¬ pyMem inv.services servicename then
    { inv with services := pySet inv.services servicename
                 (Service.new servicename) }
  else inv

def Inventory.delete_service (inv : Inventory) (servicename : String) :
    Inventory :=
  if pyMem inv.services servicename then
    { inv with services := pyDel inv.services servicename }
  else inv

def Inventory.create_sub_service (inv : Inventory) (sub_servicename : String) :
    Inventory :=
  if ¬ pyMem inv.sub_services sub_servicename then
    { inv with sub_services := pySet inv.sub_services sub_servicename
                 (SubService.new sub_servicename) }
  else inv

def Inventory.delete_sub_service (inv : Inventory) (sub_servicename : String) :
    Inventory :=
  if pyMem inv.sub_services sub_servicename then
    { inv with sub_services := pyDel inv.sub_services sub_servicename }
  else inv

def Inventory.add_group_to_service (inv : Inventory)
    (groupname servicename : String) : Except (String × Inventory) Inventory :=
  if ¬ pyMem inv.groups groupname then
    .error ("Group (" ++ groupname ++ ") not found.", inv)
  else if pyMem inv.services servicename then
    .ok (pyUpdServices inv servicename (·.add_groupname groupname))
  else if pyMem inv.sub_services servicename then
    .ok (pyUpdSubs inv servicename (·.add_groupname groupname))
  else
    .error ("Service (" ++ servicename ++ ") not found.", inv)

def Inventory.remove_group_from_service (inv : Inventory)
    (groupname servicename : String) : Except (String × Inventory) Inventory :=
  if ¬ pyMem inv.groups groupname then
    .error ("Group (" ++ groupname ++ ") not found.", inv)
  else if pyMem inv.services servicename then
    .ok (pyUpdServices inv servicename (·.remove_groupname groupname))
  else if pyMem inv.sub_services servicename then
    .ok (pyUpdSubs inv servicename (·.remove_groupname groupname))
  else
    .error ("Service (" ++ servicename ++ ") not found.", inv)

def Inventory.set_deploy_mode (inv : Inventory) (remote_flag : Bool) :
    Except (String × Inventory) Inventory :=
  if ¬ remote_flag ∧ inv.hosts.length > 1 then
    .error ("Cannot set local deploy mode when multiple hosts exist", inv)
  else
    .ok { inv with
      remote_mode := remote_flag,
      groups := inv.groups.map (fun p => (p.1, p.2.set_remote remote_flag)) }

/-- The first loop of `_create_default_inventory`: create each default
deploy group (propagating a possible `CommandError`). -/
def seed_groups : Inventory → List String →
    Except (String × Inventory) Inventory
  | inv, [] => .ok inv
  | inv, groupname :: rest => do
      let (inv, _) ← inv.add_group groupname
      seed_groups inv rest

/-- Body of the second loop of `_create_default_inventory` for one
service of the static catalog. -/
def seed_service (inv : Inventory) (svcname : String)
    (sub_svcnames : List String) : Inventory :=
  let inv := inv.create_service svcname
  let default_grpname := (pyGet DEFAULT_GROUPS svcname).getD ""
  let inv := pyUpdServices inv svcname
    (fun s => s.add_groupname default_grpname)
  sub_svcnames.foldl (fun inv sub_svcname =>
    let inv := pyUpdServices inv svcname
      (fun s => s.add_sub_servicename sub_svcname)
    let inv := inv.create_sub_service sub_svcname
    let inv := pyUpdSubs inv sub_svcname
      (fun s => s.set_parent_servicename svcname)
    match pyGet DEFAULT_OVERRIDES sub_svcname with
    | some override => pyUpdSubs inv sub_svcname
        (fun s => s.add_groupname override)
    | none => inv) inv

/-- Python `Inventory._create_default_inventory`. -/
def Inventory.create_default_inventory (inv : Inventory) :
    Except (String × Inventory) Inventory := do
  let inv ← seed_groups inv DEPLOY_GROUPS
  .ok (SERVICES.foldl (fun inv p => seed_service inv p.1 p.2) inv)

/-- Python `Inventory()`: a freshly constructed, default-seeded
inventory (the seeding sequence raises no exception; see
`default_inventory_ok`). -/
def defaultInventory : Inventory :=
  match Inventory.base.create_default_inventory with
  | .ok inv => inv
  | .error e => e.2

/-! JSON values and `json.dumps` (default separators, no indent,
insertion-ordered dicts). The strings serialized by this module are
plain ASCII identifiers, so only quote and backslash escapes are
modelled. -/

inductive JValue where
  | null
  | str (s : String)
  | arr (xs : List JValue)
  | obj (fields : List (String × JValue))
  deriving Repr

def jescapeChar (c : Char) : String :=
  if c = '\\' then "\\\\"
  else if c = '"' then "\\\""
  else String.singleton c

def jstring (s : String) : String :=
  "\"" ++ String.join (s.data.map jescapeChar) ++ "\""

mutual

def JValue.dumps : JValue → String
  | .null => "null"
  | .str s => jstring s
  | .arr xs => "[" ++ dumpsArr xs ++ "]"
  | .obj fields => "\x7b" ++ dumpsObj fields ++ "\x7d"

def dumpsArr : List JValue → String
  | [] => ""
  | [x] => x.dumps
  | x :: rest => x.dumps ++ ", " ++ dumpsArr rest

def dumpsObj : List (String × JValue) → String
  | [] => ""
  | [(k, v)] => jstring k ++ ": " ++ v.dumps
  | (k, v) :: rest => jstring k ++ ": " ++ v.dumps ++ ", " ++ dumpsObj rest

end

def jvars (vars : List (String × String)) : JValue :=
  .obj (vars.map (fun p => (p.1, .str p.2)))

/-- The optional `inventory_filter` dict argument of `get_ansible_json`:
each field is `some` exactly when the corresponding key is present. -/
structure InvFilter where
  deploy_hosts : Option (List String) := none
  deploy_groups : Option (List String) := none
  deriving Repr, DecidableEq

/-- Python `Inventory._filter_hosts`. -/
def filter_hosts (initial_hostnames deploy_hostnames : List String) :
    List String :=
  deploy_hostnames.filter (fun hostname => hostname ∈ initial_hostnames)

/-- The jdict entry emitted for one host group. -/
def group_json (group : HostGroup)
    (deploy_hostnames deploy_groupnames : List String) : JValue :=
  .obj [("hosts",
          .arr (if group.name ∈ deploy_groupnames then
                  (filter_hosts group.get_hostnames deploy_hostnames).map .str
                else [])),
        ("children", .arr []),
        ("vars", jvars group.get_vars)]

/-- The jdict entry emitted for one top-level service. -/
def service_json (service : Service) : JValue :=
  .obj [("children", .arr (service.get_groupnames.map .str))]

/-- The jdict entry emitted for one sub-service: its groups if it has
any, else its parent service name (serialized as null when absent). -/
def sub_service_json (sub_svc : SubService) : JValue :=
  .obj [("children",
          .arr (match sub_svc.get_groupnames with
                | [] => [match sub_svc.get_parent_service_name with
                         | some p => .str p
                         | none => .null]
                | gs => gs.map .str))]

/-- The first three loops of `get_ansible_json`: groups, services,
sub-services, keyed by each object's name. -/
def Inventory.build_jdict (inv : Inventory)
    (deploy_hostnames deploy_groupnames : List String) :
    List (String × JValue) :=
  let jdict := inv.groups.foldl (fun jd p =>
    pySet jd p.2.name (group_json p.2 deploy_hostnames deploy_groupnames)) []
  let jdict := inv.services.foldl (fun jd p =>
    pySet jd p.2.name (service_json p.2)) jdict
  inv.sub_services.foldl (fun jd p =>
    pySet jd p.2.name (sub_service_json p.2)) jdict

/-- The `_meta.hostvars` loop of `get_ansible_json`. -/
def Inventory.meta_hostvars (inv : Inventory)
    (deploy_hostnames : List String) : List (String × JValue) :=
  deploy_hostnames.foldl (fun hostvars hostname =>
    match inv.get_host hostname with
    | some host => pySet hostvars hostname (jvars host.get_vars)
    | none => hostvars) []

/-- The effective deploy-hostname filter: the filter's `deploy_hosts`
entry when that key is present, else all hostnames. -/
def Inventory.effective_hostnames (inv : Inventory)
    (inventory_filter : Option InvFilter) : List String :=
  match inventory_filter with
  | some f => match f.deploy_hosts with
              | some hs => hs
              | none => inv.get_hostnames
  | none => inv.get_hostnames

/-- The effective deploy-groupname filter: the filter's `deploy_groups`
entry when that key is present, else all groupnames. -/
def Inventory.effective_groupnames (inv : Inventory)
    (inventory_filter : Option InvFilter) : List String :=
  match inventory_filter with
  | some f => match f.deploy_groups with
              | some gs => gs
              | none => inv.get_groupnames
  | none => inv.get_groupnames

/-- Python `Inventory.get_ansible_json`: renders the filtered dynamic
inventory and returns the JSON string together with the aggregate state
after the transient `__RESERVED__` group has been created and removed
again. -/
def Inventory.get_ansible_json (inv : Inventory)
    (inventory_filter : Option InvFilter := none) :
    Except (String × Inventory) (String × Inventory) :=
  let deploy_hostnames := inv.effective_hostnames inventory_filter
  let deploy_groupnames := inv.effective_groupnames inventory_filter
  let jdict := inv.build_jdict deploy_hostnames deploy_groupnames
  match inv.add_group "__RESERVED__" with
  | .error e => .error e
  | .ok (inv, group) =>
    let jdict := pySet jdict group.name
      (.obj [("hosts", .arr (deploy_hostnames.map .str)),
             ("vars", jvars group.get_vars)])
    match inv.remove_group group.name with
    | .error e => .error e
    | .ok inv =>
      let jdict := pySet jdict "_meta"
        (.obj [("hostvars", .obj (inv.meta_hostvars deploy_hostnames))])
      .ok ((JValue.obj jdict).dumps, inv)

/-! Public operations of the aggregate and the states reachable from a
freshly constructed inventory through them. -/

inductive Op where
  | add_host (hostname : String) (groupname : Option String)
  | remove_host (hostname : String) (groupname : Option String)
  | add_group (groupname : String)
  | remove_group (groupname : String)
  | create_service (servicename : String)
  | delete_service (servicename : String)
  | create_sub_service (sub_servicename : String)
  | delete_sub_service (sub_servicename : String)
  | add_group_to_service (groupname servicename : String)
  | remove_group_from_service (groupname servicename : String)
  | set_deploy_mode (remote_flag : Bool)
  | get_ansible_json (inventory_filter : Option InvFilter)
  deriving Repr

def runOp (op : Op) (inv : Inventory) : Except (String × Inventory) Inventory :=
  match op with
  | .add_host h g => inv.add_host h g
  | .remove_host h g => inv.remove_host h g
  | .add_group g => (inv.add_group g).map Prod.fst
  | .remove_group g => inv.remove_group g
  | .create_service s => .ok (inv.create_service s)
  | .delete_service s => .ok (inv.delete_service s)
  | .create_sub_service s => .ok (inv.create_sub_service s)
  | .delete_sub_service s => .ok (inv.delete_sub_service s)
  | .add_group_to_service g s => inv.add_group_to_service g s
  | .remove_group_from_service g s => inv.remove_group_from_service g s
  | .set_deploy_mode b => inv.set_deploy_mode b
  | .get_ansible_json f => (inv.get_ansible_json f).map Prod.snd

/-- States reachable from a freshly constructed (default-seeded)
inventory via completed public operations. An operation that raises
leaves the state unchanged (every raise in `inventory.py` happens
before any mutation), so error outcomes add no new states. -/
inductive Reachable : Inventory → Prop where
  | init : Reachable defaultInventory
  | step {inv inv' : Inventory} (op : Op) : Reachable inv →
      runOp op inv = .ok inv' → Reachable inv'

/-! Derived notions used by the theorems below. -/

/-- The state left behind by a completed `get_ansible_json` call: the
transient `__RESERVED__` group is gone again, but its removal has
stripped the reserved name from every service and sub-service group
list, re-parenting any catalog sub-service whose group list is empty. -/
def Inventory.normalize_for_json (inv : Inventory) : Inventory :=
  { inv with
    groups := pyDel inv.groups "__RESERVED__",
    services := inv.services.map
      (fun p => (p.1, p.2.remove_groupname "__RESERVED__")),
    sub_services := inv.sub_services.map
      (fun p => (p.1, p.2.remove_groupname "__RESERVED__")) }

/-- The group object a successful `add_group(g)` call returns: the
stored group if one exists, else a fresh one, with the deploy-mode
connection vars applied. -/
def added_group (inv : Inventory) (g : String) : HostGroup :=
  ((pyGet inv.groups g).getD (HostGroup.new g)).set_remote inv.remote_mode

/-- The group object returned by `add_group("__RESERVED__")`. -/
def Inventory.reserved_group (inv : Inventory) : HostGroup :=
  added_group inv "__RESERVED__"

/-- Closed form of the complete jdict rendered by `get_ansible_json`. -/
def Inventory.final_jdict (inv : Inventory)
    (inventory_filter : Option InvFilter) : List (String × JValue) :=
  let deploy_hostnames := inv.effective_hostnames inventory_filter
  let deploy_groupnames := inv.effective_groupnames inventory_filter
  pySet
    (pySet (inv.build_jdict deploy_hostnames deploy_groupnames)
      "__RESERVED__"
      (.obj [("hosts", .arr (deploy_hostnames.map .str)),
             ("vars", jvars inv.reserved_group.get_vars)]))
    "_meta"
    (.obj [("hostvars", .obj (inv.meta_hostvars deploy_hostnames))])

/-- Mutual exclusion between group associations and a parent service,
for every sub-service of the aggregate (the comment in
`SubService.__init__`: groups and parent services are mutually
exclusive). -/
def subservice_exclusive (inv : Inventory) : Prop :=
  ∀ p ∈ inv.sub_services, p.2.groupnames = [] ∨ p.2.parent_servicename = none

/-- If a group is stored under the reserved key, its object name agrees
with the key (true of every group the aggregate itself creates). -/
def reserved_ok (inv : Inventory) : Prop :=
  ∀ g, pyGet inv.groups "__RESERVED__" = some g → g.name = "__RESERVED__"

/-- Structural well-formedness every Python-constructed aggregate has:
unique group keys and duplicate-free group lists on services and
sub-services, plus a coherent reserved entry. -/
def wf_for_json (inv : Inventory) : Prop :=
  (pyKeys inv.groups).Nodup ∧
  (∀ p ∈ inv.services, p.2.groupnames.Nodup) ∧
  (∀ p ∈ inv.sub_services, p.2.groupnames.Nodup) ∧
  reserved_ok inv

/-- Every stored entity object is keyed by its own name (true of every
Python-constructed aggregate). -/
def names_coherent (inv : Inventory) : Prop :=
  (∀ p ∈ inv.groups, p.2.name = p.1) ∧
  (∀ p ∈ inv.services, p.2.name = p.1) ∧
  (∀ p ∈ inv.sub_services, p.2.name = p.1)

/-- Extract the resulting state of an operation (on error, the state at
raise time). -/
def okOr (r : Except (String × Inventory) Inventory) : Inventory :=
  match r with
  | .ok inv => inv
  | .error e => e.2

/-! Concrete states used by witnesses and counterexamples. -/

/-- A default inventory after the public call `create_sub_service("zzz")`. -/
def sigma3 : Inventory :=
  okOr (runOp (.create_sub_service "zzz") defaultInventory)

/-- A default inventory after the public call `create_service("compute")`. -/
def sigma4 : Inventory :=
  okOr (runOp (.create_service "compute") defaultInventory)

/-- A default inventory after `add_host("a")`. -/
def sigma7a : Inventory :=
  okOr (runOp (.add_host "a" none) defaultInventory)

/-- `sigma7a` switched to local deploy mode (one host, so allowed). -/
def sigma7 : Inventory :=
  okOr (runOp (.set_deploy_mode false) sigma7a)

/-- A small aggregate state: the protected compute group (with its
default remote-mode vars) and one catalog sub-service that has just
been (re)created, so it has no groups and no parent. Reachable in
Python from a fresh Inventory by removing the other groups, services
and sub-services and then calling `create_sub_service("cinder-api")`. -/
def sigmaC : Inventory :=
  { groups := [("compute",
      { name := "compute", hostnames := [],
        vars := [("ansible_become", "yes"),
                 ("ansible_ssh_user", "kolla")] })],
    sub_services := [("cinder-api", SubService.new "cinder-api")] }

/-- The state `get_ansible_json` leaves behind when called on `sigmaC`. -/
def sigmaC' : Inventory :=
  okOr ((sigmaC.get_ansible_json none).map Prod.snd)

/-- An aggregate that already contains a group stored under the
reserved name (created by the public call `add_group("__RESERVED__")`,
which no check prevents). -/
def sigma9 : Inventory :=
  { groups := [("__RESERVED__",
      { name := "__RESERVED__", hostnames := [],
        vars := [("ansible_become", "yes"),
                 ("ansible_ssh_user", "kolla")] })] }

/-- The filter whose host list is exactly `["h1"]`. -/
def filter_h1 : Option InvFilter := some { deploy_hosts := some ["h1"] }

/-- A filter whose host list is exactly `[h1]`, with an arbitrary
optional group filter. -/
def fhost (h1 : String) (fg : Option (List String)) : Option InvFilter :=
  some { deploy_hosts := some [h1], deploy_groups := fg }

/-- Output and resulting state of the first projection of `sigmaC`. -/
def cjson1 : String × Inventory :=
  match sigmaC.get_ansible_json none with
  | .ok p => p
  | .error e => ("", e.2)

/-- Output and resulting state of the second projection of `sigmaC`. -/
def cjson2 : String × Inventory :=
  match cjson1.2.get_ansible_json none with
  | .ok p => p
  | .error e => ("", e.2)

/-- Output and resulting state of the first projection of the unseeded
base aggregate (used as a small concrete witness input). -/
def wjson1 : String × Inventory :=
  match Inventory.base.get_ansible_json none with
  | .ok p => p
  | .error e => ("", e.2)

/-- Output and resulting state of the second projection. -/
def wjson2 : String × Inventory :=
  match wjson1.2.get_ansible_json none with
  | .ok p => p
  | .error e => ("", e.2)

/-! Basic association-list lemmas. -/

theorem pyGet_pySet {α : Type} (l : List (String × α)) (k k' : String)
    (v : α) :
    pyGet (pySet l k v) k' = if k' = k then some v else pyGet l k' := by
  induction l with
  | nil =>
      simp only [pySet, pyGet]
      by_cases h : k' = k
      · subst h; simp
      · rw [if_neg (fun h' => h h'.symm), if_neg h]
  | cons p rest ih =>
      obtain ⟨k0, v0⟩ := p
      by_cases h0 : k0 = k
      · subst h0
        by_cases h : k' = k0
        · subst h; simp [pySet, pyGet]
        · have h' : ¬ (k0 = k') := fun e => h e.symm
          simp [pySet, pyGet, h, h']
      · by_cases h : k' = k0
        · subst h
          have h' : ¬ (k' = k) := fun e => h0 e
          simp [pySet, pyGet, h0, h']
        · have h' : ¬ (k0 = k') := fun e => h e.symm
          simp [pySet, pyGet, h0, h', ih]

theorem pyDel_pySet {α : Type} (l : List (String × α)) (k : String)
    (v : α) : pyDel (pySet l k v) k = pyDel l k := by
  induction l with
  | nil => simp [pySet, pyDel]
  | cons p rest ih =>
      obtain ⟨k0, v0⟩ := p
      simp only [pySet, pyDel]
      by_cases h0 : k0 = k
      · subst h0; simp [pyDel]
      · simp [pyDel, h0, ih]

theorem pyMem_false_pyDel {α : Type} (l : List (String × α)) (k : String)
    (h : pyMem l k = false) : pyDel l k = l := by
  induction l with
  | nil => rfl
  | cons p rest ih =>
      obtain ⟨k0, v0⟩ := p
      simp only [pyMem, pyGet] at h
      by_cases h0 : k0 = k
      · simp [h0] at h
      · simp only [pyDel, if_neg h0]
        simp only [if_neg h0] at h
        rw [ih (by simpa [pyMem] using h)]

theorem pyMem_length_pos {α : Type} {l : List (String × α)} {k : String}
    (h : pyMem l k = true) : 1 ≤ l.length := by
  cases l with
  | nil => simp [pyMem, pyGet] at h
  | cons p rest => simp

theorem pyDel_sublist {α : Type} (l : List (String × α)) (k : String) :
    (pyDel l k).Sublist l := by
  induction l with
  | nil => simp [pyDel]
  | cons p rest ih =>
      obtain ⟨k0, v0⟩ := p
      simp only [pyDel]
      by_cases h0 : k0 = k
      · simp [h0]
      · simpa [h0] using ih.cons₂ (k0, v0)

theorem pyDel_mem {α : Type} {l : List (String × α)} {k : String}
    {p : String × α} (h : p ∈ pyDel l k) : p ∈ l :=
  (pyDel_sublist l k).mem h

theorem pySet_mem {α : Type} (l : List (String × α)) (k : String) (v : α) :
    ∀ p ∈ pySet l k v, p ∈ l ∨ p = (k, v) := by
  induction l with
  | nil => intro p hp; simpa [pySet] using hp
  | cons q rest ih =>
      obtain ⟨k0, v0⟩ := q
      intro p hp
      by_cases h0 : k0 = k
      · simp only [pySet, if_pos h0, List.mem_cons] at hp
        rcases hp with hp | hp
        · exact Or.inr hp
        · exact Or.inl (List.mem_cons_of_mem _ hp)
      · simp only [pySet, if_neg h0, List.mem_cons] at hp
        rcases hp with hp | hp
        · exact Or.inl (by simp [hp])
        · rcases ih p hp with h' | h'
          · exact Or.inl (List.mem_cons_of_mem _ h')
          · exact Or.inr h'

theorem pyUpd_mem {α : Type} (l : List (String × α)) (k : String)
    (f : α → α) :
    ∀ p ∈ pyUpd l k f, p ∈ l ∨ ∃ q ∈ l, p = (q.1, f q.2) := by
  induction l with
  | nil => intro p hp; simp [pyUpd] at hp
  | cons q rest ih =>
      obtain ⟨k0, v0⟩ := q
      intro p hp
      by_cases h0 : k0 = k
      · simp only [pyUpd, if_pos h0, List.mem_cons] at hp
        rcases hp with hp | hp
        · exact Or.inr ⟨(k0, v0), List.mem_cons_self _ _, hp⟩
        · exact Or.inl (List.mem_cons_of_mem _ hp)
      · simp only [pyUpd, if_neg h0, List.mem_cons] at hp
        rcases hp with hp | hp
        · exact Or.inl (by simp [hp])
        · rcases ih p hp with h' | ⟨q, hq, hq'⟩
          · exact Or.inl (List.mem_cons_of_mem _ h')
          · exact Or.inr ⟨q, List.mem_cons_of_mem _ hq, hq'⟩

/-! C8: removing the protected compute group. -/

/-- C8: for every inventory state, `remove_group("compute")` raises the
protected-group `CommandError` immediately, before any group reference
is stripped from services or sub-services and before any deletion, so
the state at raise time is exactly the entry state. -/
theorem c8_remove_group_compute_always_fails (inv : Inventory) :
    inv.remove_group "compute" =
      .error ("Cannot remove compute group. It is required by kolla.", inv) :=
  rfl

/-! C5: mutual exclusivity of groups and parent on a sub-service. -/

/-- C5: for any sub-service satisfying the class invariant stated in
the source (a non-empty group list forces a nil parent — groups and
parent are mutually exclusive), `add_groupname(g)` leaves the parent
nil, and `set_parent_servicename(p)` empties the group list. -/
theorem c5_add_group_clears_parent_and_set_parent_clears_groups
    (s : SubService) (g p : String)
    (hinv : s.groupnames ≠ [] → s.parent_servicename = none) :
    (s.add_groupname g).get_parent_service_name = none ∧
    (s.set_parent_servicename p).get_groupnames = [] := by
  refine ⟨?_, rfl⟩
  unfold SubService.add_groupname SubService.get_parent_service_name
  by_cases hg : g ∈ s.groupnames
  · simp only [if_pos hg]
    exact hinv (by rintro he; rw [he] at hg; cases hg)
  · simp [hg]

theorem c5_witness :
    ((SubService.new "cinder-api").groupnames ≠ [] →
      (SubService.new "cinder-api").parent_servicename = none) ∧
    (((SubService.new "cinder-api").add_groupname
        "compute").get_parent_service_name = none ∧
     ((SubService.new "cinder-api").set_parent_servicename
        "cinder").get_groupnames = []) :=
  ⟨by decide,
   c5_add_group_clears_parent_and_set_parent_clears_groups
     (SubService.new "cinder-api") "compute" "cinder" (by decide)⟩

/-! C6: removing the last group re-parents a cataloged sub-service. -/

/-- C6: a sub-service listed in the static catalog under owning service
P whose group list is exactly [g] ends up, after `remove_groupname(g)`,
with an empty group list and parent P. -/
theorem c6_remove_last_group_reparents (s : SubService) (g P : String)
    (hcat : catalog_parent s.name = some P) (hg : s.groupnames = [g]) :
    (s.remove_groupname g).get_groupnames = [] ∧
    (s.remove_groupname g).get_parent_service_name = some P := by
  unfold SubService.remove_groupname
  simp [hg, hcat, SubService.set_parent_servicename,
        SubService.get_groupnames, SubService.get_parent_service_name,
        List.erase_cons]

theorem c6_witness :
    catalog_parent (SubService.mk "cinder-backup" ["storage"] none []).name =
      some "cinder" ∧
    (SubService.mk "cinder-backup" ["storage"] none []).groupnames =
      ["storage"] ∧
    (((SubService.mk "cinder-backup" ["storage"] none []).remove_groupname
        "storage").get_groupnames = [] ∧
     ((SubService.mk "cinder-backup" ["storage"] none []).remove_groupname
        "storage").get_parent_service_name = some "cinder") :=
  ⟨by decide, by decide,
   c6_remove_last_group_reparents _ "storage" "cinder" (by decide) rfl⟩

/-! C10: removing a never-associated group is not a pure no-op. -/

/-- C10: removing a groupname that is not associated with the
sub-service leaves the group list unchanged, but whenever that list is
empty the call re-parents a cataloged sub-service to its cataloged
owner even though the removed group was never associated, while a
sub-service absent from the catalog keeps whatever parent it had. -/
theorem c10_remove_unassociated_group (s : SubService) (g : String)
    (hg : g ∉ s.groupnames) :
    (s.remove_groupname g).get_groupnames = s.groupnames ∧
    (s.remove_groupname g).get_parent_service_name =
      (if s.groupnames = [] then
        (match catalog_parent s.name with
         | some P => some P
         | none => s.parent_servicename)
       else s.parent_servicename) := by
  unfold SubService.remove_groupname
  simp only [if_neg hg]
  by_cases he : s.groupnames = []
  · simp only [if_pos he]
    cases hcat : catalog_parent s.name with
    | some P =>
        simp [SubService.set_parent_servicename, SubService.get_groupnames,
              SubService.get_parent_service_name, he]
    | none =>
        simp [SubService.get_groupnames, SubService.get_parent_service_name,
              he]
  · simp [he, SubService.get_groupnames, SubService.get_parent_service_name]

theorem c10_witness :
    ("compute" ∉ (SubService.new "cinder-api").groupnames) ∧
    (((SubService.new "cinder-api").remove_groupname
        "compute").get_groupnames = (SubService.new "cinder-api").groupnames ∧
     ((SubService.new "cinder-api").remove_groupname
        "compute").get_parent_service_name =
      (if (SubService.new "cinder-api").groupnames = [] then
        (match catalog_parent (SubService.new "cinder-api").name with
         | some P => some P
         | none => (SubService.new "cinder-api").parent_servicename)
       else (SubService.new "cinder-api").parent_servicename)) :=
  ⟨by decide, c10_remove_unassociated_group (SubService.new "cinder-api")
      "compute" (by decide)⟩

/-! C4: namespace disjointness. -/

/-- C4 (amended): `add_group(n)` raises the namespace-collision
`CommandError` whenever n names an existing service or sub-service, and
the state at raise time is the entry state. (The converse direction of
the claim fails: service creation does not check group names; see the
counterexample.) -/
theorem c4_add_group_rejects_service_names (inv : Inventory) (n : String)
    (h : pyMem inv.services n = true ∨ pyMem inv.sub_services n = true) :
    inv.add_group n =
      .error
        ("Invalid group name. A service name cannot be used for a group name.",
         inv) := by
  unfold Inventory.add_group
  rcases h with h | h <;> simp [h]

theorem c4_witness :
    (pyMem defaultInventory.services "cinder" = true ∨
     pyMem defaultInventory.sub_services "cinder" = true) ∧
    defaultInventory.add_group "cinder" =
      .error
        ("Invalid group name. A service name cannot be used for a group name.",
         defaultInventory) :=
  ⟨Or.inl (by decide),
   c4_add_group_rejects_service_names defaultInventory "cinder"
     (Or.inl (by decide))⟩

/-- C4 counterexample: from the default inventory the public call
`create_service("compute")` succeeds without any check, reaching a
state in which the name compute is simultaneously a group name and a
service name, so the namespace-disjointness invariant claimed for all
reachable states is false. -/
theorem c4_counterexample :
    Reachable sigma4 ∧
    pyMem sigma4.groups "compute" = true ∧
    pyMem sigma4.services "compute" = true :=
  ⟨Reachable.step (.create_service "compute") Reachable.init rfl,
   by decide, by decide⟩

/-! C7: add_host on an already-present host with no group. -/

/-- C7 (amended): when the host already exists and no group is given,
`add_host` is an idempotent no-op in remote deploy mode, but in local
deploy mode it raises the one-host `CommandError` (the guard counts all
hosts without checking whether this host is new), leaving the state
unchanged. -/
theorem c7_add_host_existing_no_group (inv : Inventory) (h : String)
    (hmem : pyMem inv.hosts h = true) :
    (inv.remote_mode = true → inv.add_host h none = .ok inv) ∧
    (inv.remote_mode = false →
      inv.add_host h none =
        .error ("Cannot have more than one host when in local deploy mode",
                inv)) := by
  constructor
  · intro hr
    unfold Inventory.add_host
    simp [hr, hmem]
  · intro hr
    unfold Inventory.add_host
    simp [hr, hmem, pyMem_length_pos hmem]

theorem c7_witness :
    pyMem sigma7a.hosts "a" = true ∧
    ((sigma7a.remote_mode = true → sigma7a.add_host "a" none = .ok sigma7a) ∧
     (sigma7a.remote_mode = false →
       sigma7a.add_host "a" none =
         .error ("Cannot have more than one host when in local deploy mode",
                 sigma7a))) :=
  ⟨by decide, c7_add_host_existing_no_group sigma7a "a" (by decide)⟩

/-- C7 counterexample: the reachable state sigma7 (default inventory,
then `add_host("a")`, then `set_deploy_mode(local)`) has host a
present, yet `add_host("a")` with no group raises the local-mode
`CommandError` instead of being an idempotent no-op. -/
theorem c7_counterexample :
    Reachable sigma7 ∧
    pyMem sigma7.hosts "a" = true ∧
    sigma7.add_host "a" none =
      .error ("Cannot have more than one host when in local deploy mode",
              sigma7) :=
  ⟨Reachable.step (.set_deploy_mode false)
     (Reachable.step (.add_host "a" none) Reachable.init rfl) rfl,
   by decide, rfl⟩

/-! C3: mutual exclusion of groups and parent across reachable states. -/

theorem sub_excl_add_groupname (s : SubService) (g : String)
    (h : s.groupnames = [] ∨ s.parent_servicename = none) :
    (s.add_groupname g).groupnames = [] ∨
    (s.add_groupname g).parent_servicename = none := by
  unfold SubService.add_groupname
  by_cases hg : g ∈ s.groupnames
  · simpa [hg] using h
  · simp [hg]

theorem sub_excl_set_parent (s : SubService) (p : String) :
    (s.set_parent_servicename p).groupnames = [] ∨
    (s.set_parent_servicename p).parent_servicename = none :=
  Or.inl rfl

theorem sub_excl_remove_groupname (s : SubService) (g : String)
    (h : s.groupnames = [] ∨ s.parent_servicename = none) :
    (s.remove_groupname g).groupnames = [] ∨
    (s.remove_groupname g).parent_servicename = none := by
  unfold SubService.remove_groupname
  by_cases hg : g ∈ s.groupnames
  · simp only [if_pos hg]
    by_cases he : s.groupnames.erase g = []
    · simp only [he]
      cases hcat : catalog_parent s.name with
      | some P => exact Or.inl rfl
      | none => simp [he]
    · simp only [he, if_neg he]
      refine Or.inr ?_
      rcases h with h | h
      · rw [h] at he; simp at he
      · exact h
  · simp only [if_neg hg]
    by_cases he : s.groupnames = []
    · simp only [he]
      cases hcat : catalog_parent s.name with
      | some P => exact Or.inl rfl
      | none => simp [he]
    · simpa [he] using h

theorem sub_excl_of_subs_eq {inv inv' : Inventory}
    (h : inv'.sub_services = inv.sub_services)
    (hi : subservice_exclusive inv) : subservice_exclusive inv' := by
  intro p hp
  exact hi p (h ▸ hp)

theorem sub_excl_map_remove {inv : Inventory} {g : String}
    (hi : subservice_exclusive inv) :
    ∀ p ∈ inv.sub_services.map
        (fun q => (q.1, q.2.remove_groupname g)),
      p.2.groupnames = [] ∨ p.2.parent_servicename = none := by
  intro p hp
  rcases List.mem_map.1 hp with ⟨q, hq, rfl⟩
  exact sub_excl_remove_groupname q.2 g (hi q hq)

/-- The net effect on the sub-service collection of a completed
`get_ansible_json` call: every sub-service object went through
`remove_groupname` with the name of the transient group. -/
theorem get_ansible_json_subs {inv inv' : Inventory}
    {f : Option InvFilter} {j : String}
    (h : inv.get_ansible_json f = .ok (j, inv')) :
    ∃ g, inv'.sub_services =
      inv.sub_services.map (fun p => (p.1, p.2.remove_groupname g)) := by
  unfold Inventory.get_ansible_json at h
  split at h
  · exact absurd h (by simp)
  · rename_i invA grp hag
    have hsubsA : invA.sub_services = inv.sub_services := by
      unfold Inventory.add_group at hag
      split at hag
      · exact absurd hag (by simp)
      · cases hag
        by_cases hmem : pyMem inv.groups "__RESERVED__" = true <;> simp [hmem]
    split at h
    · exact absurd h (by simp)
    · rename_i invB hrg
      have hsubsB : invB.sub_services =
          invA.sub_services.map
            (fun p => (p.1, p.2.remove_groupname grp.name)) := by
        unfold Inventory.remove_group at hrg
        split at hrg
        · exact absurd hrg (by simp)
        · cases hrg; rfl
      cases h
      exact ⟨grp.name, by rw [hsubsB, hsubsA]⟩

/-- Preservation of the exclusivity invariant by every public
operation. -/
theorem subservice_exclusive_step {inv inv' : Inventory} (op : Op)
    (h : runOp op inv = .ok inv') (hi : subservice_exclusive inv) :
    subservice_exclusive inv' := by
  cases op with
  | add_host hn g =>
      refine sub_excl_of_subs_eq ?_ hi
      cases g with
      | none =>
          simp only [runOp, Inventory.add_host] at h
          split at h
          · simp at h
          · split at h <;> (cases h; rfl)
      | some gn =>
          simp only [runOp, Inventory.add_host] at h
          split at h
          · simp at h
          · split at h
            · simp at h
            · cases h; rfl
  | remove_host hn g =>
      refine sub_excl_of_subs_eq ?_ hi
      cases g with
      | none =>
          simp only [runOp, Inventory.remove_host] at h
          split at h
          · simp at h
          · split at h <;> (cases h; rfl)
      | some gn =>
          simp only [runOp, Inventory.remove_host] at h
          split at h
          · simp at h
          · split at h <;> (cases h; rfl)
  | add_group g =>
      refine sub_excl_of_subs_eq ?_ hi
      simp only [runOp, Inventory.add_group] at h
      split at h
      · simp [Except.map] at h
      · simp only [Except.map] at h
        cases h
        by_cases hmem : pyMem inv.groups g = true <;> simp [hmem]
  | remove_group g =>
      simp only [runOp, Inventory.remove_group] at h
      split at h
      · simp at h
      · cases h
        exact sub_excl_map_remove hi
  | create_service s =>
      refine sub_excl_of_subs_eq ?_ hi
      simp only [runOp, Inventory.create_service] at h
      split at h <;> (cases h; rfl)
  | delete_service s =>
      refine sub_excl_of_subs_eq ?_ hi
      simp only [runOp, Inventory.delete_service] at h
      split at h <;> (cases h; rfl)
  | create_sub_service s =>
      simp only [runOp, Inventory.create_sub_service] at h
      split at h
      · cases h
        intro p hp
        rcases pySet_mem _ _ _ p hp with hp' | hp'
        · exact hi p hp'
        · rw [hp']
          exact Or.inl rfl
      · cases h
        exact hi
  | delete_sub_service s =>
      simp only [runOp, Inventory.delete_sub_service] at h
      split at h
      · cases h
        intro p hp
        exact hi p (pyDel_mem hp)
      · cases h
        exact hi
  | add_group_to_service g s =>
      simp only [runOp, Inventory.add_group_to_service] at h
      split at h
      · simp at h
      · split at h
        · cases h
          exact hi
        · split at h
          · cases h
            intro p hp
            rcases pyUpd_mem _ _ _ p hp with hp' | ⟨q, hq, rfl⟩
            · exact hi p hp'
            · exact sub_excl_add_groupname q.2 g (hi q hq)
          · simp at h
  | remove_group_from_service g s =>
      simp only [runOp, Inventory.remove_group_from_service] at h
      split at h
      · simp at h
      · split at h
        · cases h
          exact hi
        · split at h
          · cases h
            intro p hp
            rcases pyUpd_mem _ _ _ p hp with hp' | ⟨q, hq, rfl⟩
            · exact hi p hp'
            · exact sub_excl_remove_groupname q.2 g (hi q hq)
          · simp at h
  | set_deploy_mode b =>
      refine sub_excl_of_subs_eq ?_ hi
      simp only [runOp, Inventory.set_deploy_mode] at h
      split at h
      · simp at h
      · cases h; rfl
  | get_ansible_json f =>
      simp only [runOp] at h
      cases hg : inv.get_ansible_json f with
      | error e => rw [hg] at h; simp [Except.map] at h
      | ok pr =>
          rw [hg] at h
          obtain ⟨j, invB⟩ := pr
          simp only [Except.map] at h
          cases h
          rcases get_ansible_json_subs hg with ⟨g, hsubs⟩
          intro p hp
          rw [hsubs] at hp
          exact sub_excl_map_remove hi p hp

/-- C3 (amended): in every state reachable from a freshly constructed
default-seeded inventory via its public operations, no sub-service ever
has a non-empty group list and a non-nil parent at the same time. (The
other half of the claim — that one of the two is always present — is
false; see the counterexample.) -/
theorem c3_exclusivity_invariant (inv : Inventory) (h : Reachable inv) :
    subservice_exclusive inv := by
  induction h with
  | init => unfold subservice_exclusive; decide
  | step op hrea heq ih => exact subservice_exclusive_step op heq ih

theorem c3_witness : subservice_exclusive defaultInventory :=
  c3_exclusivity_invariant defaultInventory Reachable.init

/-- C3 counterexample: the public call `create_sub_service("zzz")` on
the default inventory reaches a state whose sub-service zzz has an
empty group list and a nil parent, so the claimed disjunction
(non-empty groups or non-nil parent) fails on a reachable state. -/
theorem c3_counterexample :
    Reachable sigma3 ∧
    pyGet sigma3.sub_services "zzz" = some (SubService.new "zzz") ∧
    (SubService.new "zzz").groupnames = [] ∧
    (SubService.new "zzz").parent_servicename = none :=
  ⟨Reachable.step (.create_sub_service "zzz") Reachable.init rfl,
   by decide, rfl, rfl⟩

/-! Closed-form behaviour of `get_ansible_json`. -/

theorem pySet_pySet {α : Type} (l : List (String × α)) (k : String)
    (v w : α) : pySet (pySet l k v) k w = pySet l k w := by
  induction l with
  | nil => simp [pySet]
  | cons p rest ih =>
      obtain ⟨k0, v0⟩ := p
      by_cases h0 : k0 = k
      · simp [pySet, h0]
      · simp [pySet, h0, ih]

theorem pyGet_not_keys {α : Type} {l : List (String × α)} {k : String}
    (h : k ∉ pyKeys l) : pyGet l k = none := by
  induction l with
  | nil => rfl
  | cons p rest ih =>
      obtain ⟨k0, v0⟩ := p
      simp only [pyKeys, List.map_cons, List.mem_cons] at h
      push_neg at h
      simp only [pyGet, if_neg (fun e : k0 = k => h.1 e.symm)]
      exact ih (by simpa [pyKeys] using h.2)

theorem pyGet_pyDel_self {α : Type} {l : List (String × α)} {k : String}
    (h : (pyKeys l).Nodup) : pyGet (pyDel l k) k = none := by
  induction l with
  | nil => rfl
  | cons p rest ih =>
      obtain ⟨k0, v0⟩ := p
      simp only [pyKeys, List.map_cons, List.nodup_cons] at h
      by_cases h0 : k0 = k
      · subst h0
        simp only [pyDel, if_pos rfl]
        exact pyGet_not_keys h.1
      · simp only [pyDel, if_neg h0, pyGet, if_neg h0]
        exact ih h.2

theorem pyMem_map {α β : Type} (l : List (String × α))
    (f : String × α → β) (k : String) :
    pyMem (l.map (fun p => (p.1, f p))) k = pyMem l k := by
  induction l with
  | nil => rfl
  | cons p rest ih =>
      obtain ⟨k0, v0⟩ := p
      by_cases h0 : k0 = k
      · simp [pyMem, pyGet, h0]
      · simp only [List.map_cons, pyMem, pyGet, if_neg h0]
        simpa [pyMem] using ih

theorem pyKeys_map {α β : Type} (l : List (String × α))
    (f : String × α → β) :
    pyKeys (l.map (fun p => (p.1, f p))) = pyKeys l := by
  induction l with
  | nil => rfl
  | cons p rest ih =>
      simp only [pyKeys, List.map_cons] at ih ⊢
      rw [ih]

theorem set_var_name (g : HostGroup) (n v : String) :
    (g.set_var n v).name = g.name :=
  rfl

theorem clear_var_name (g : HostGroup) (n : String) :
    (g.clear_var n).name = g.name := by
  unfold HostGroup.clear_var
  split <;> rfl

theorem set_remote_name (g : HostGroup) (b : Bool) :
    (g.set_remote b).name = g.name := by
  unfold HostGroup.set_remote
  cases b <;> simp [clear_var_name, set_var_name]

/-- Closed form of a successful `add_group` call. -/
theorem add_group_ok (inv : Inventory) (g : String)
    (hs : pyMem inv.services g = false)
    (hss : pyMem inv.sub_services g = false) :
    inv.add_group g =
      .ok ({ inv with groups := pySet inv.groups g (added_group inv g) },
           added_group inv g) := by
  unfold Inventory.add_group added_group
  rw [if_neg (by simp [hs, hss])]
  by_cases hmem : pyMem inv.groups g = true
  · simp [hmem]
  · simp only [Bool.not_eq_true] at hmem
    have hget : pyGet inv.groups g = none := by
      simpa [pyMem, Option.isSome_iff_exists] using hmem
    simp [hmem, hget, pyGet_pySet, pySet_pySet]

/-- Closed form of a successful `remove_group` call. -/
theorem remove_group_ok (inv : Inventory) (g : String)
    (h : g ∉ PROTECTED_GROUPS) :
    inv.remove_group g =
      .ok { inv with
        services := inv.services.map (fun p =>
          (p.1, p.2.remove_groupname g)),
        sub_services := inv.sub_services.map (fun p =>
          (p.1, p.2.remove_groupname g)),
        groups :=
          (if pyMem inv.groups g then pyDel inv.groups g else inv.groups) } := by
  unfold Inventory.remove_group
  rw [if_neg h]

theorem meta_hostvars_congr {inv1 inv2 : Inventory}
    (h : inv1.hosts = inv2.hosts) (dh : List String) :
    inv1.meta_hostvars dh = inv2.meta_hostvars dh := by
  unfold Inventory.meta_hostvars Inventory.get_host
  rw [h]

/-- A reserved-name collision makes `get_ansible_json` raise the
namespace-collision error before any mutation. -/
theorem get_ansible_json_err (inv : Inventory) (f : Option InvFilter)
    (h : pyMem inv.services "__RESERVED__" = true ∨
         pyMem inv.sub_services "__RESERVED__" = true) :
    inv.get_ansible_json f =
      .error
        ("Invalid group name. A service name cannot be used for a group name.",
         inv) := by
  unfold Inventory.get_ansible_json
  have hag : inv.add_group "__RESERVED__" =
      .error
        ("Invalid group name. A service name cannot be used for a group name.",
         inv) := by
    unfold Inventory.add_group
    rcases h with h | h <;> simp [h]
  rw [hag]

/-- Closed form of a successful `get_ansible_json` call: the output is
the dump of `final_jdict` and the state is `normalize_for_json`. -/
theorem get_ansible_json_ok (inv : Inventory) (f : Option InvFilter)
    (hs : pyMem inv.services "__RESERVED__" = false)
    (hss : pyMem inv.sub_services "__RESERVED__" = false)
    (hres : reserved_ok inv) :
    inv.get_ansible_json f =
      .ok ((JValue.obj (inv.final_jdict f)).dumps,
           inv.normalize_for_json) := by
  have hname : inv.reserved_group.name = "__RESERVED__" := by
    unfold Inventory.reserved_group added_group
    rw [set_remote_name]
    cases hg : pyGet inv.groups "__RESERVED__" with
    | none => rfl
    | some grp => simpa using hres grp hg
  unfold Inventory.get_ansible_json
  rw [add_group_ok inv _ hs hss]
  dsimp only
  rw [show added_group inv "__RESERVED__" = inv.reserved_group from rfl]
  rw [hname,
      remove_group_ok _ "__RESERVED__" (by decide)]
  dsimp only
  have hmm : pyMem (pySet inv.groups "__RESERVED__" inv.reserved_group)
      "__RESERVED__" = true := by
    simp [pyMem, pyGet_pySet]
  rw [if_pos hmm, pyDel_pySet]
  rfl

/-! Idempotency of the projection's state effect. -/

theorem service_remove_groupname_idem (s : Service) (g : String)
    (h : s.groupnames.Nodup) :
    (s.remove_groupname g).remove_groupname g = s.remove_groupname g := by
  unfold Service.remove_groupname
  by_cases hg : g ∈ s.groupnames
  · simp [hg, h.not_mem_erase]
  · simp [hg]

theorem sub_remove_groupname_idem (s : SubService) (g : String)
    (h : s.groupnames.Nodup) :
    (s.remove_groupname g).remove_groupname g = s.remove_groupname g := by
  unfold SubService.remove_groupname
  by_cases hg : g ∈ s.groupnames
  · simp only [if_pos hg]
    by_cases he : s.groupnames.erase g = []
    · simp only [he]
      cases hcat : catalog_parent s.name with
      | some P =>
          simp [SubService.set_parent_servicename, hcat]
      | none => simp [hcat, he, h.not_mem_erase]
    · simp [he, h.not_mem_erase]
  · simp only [if_neg hg]
    by_cases he : s.groupnames = []
    · simp only [he]
      cases hcat : catalog_parent s.name with
      | some P =>
          simp [SubService.set_parent_servicename, hcat]
      | none => simp [hcat, he, hg]
    · simp [he, hg]

theorem normalize_for_json_idem (inv : Inventory)
    (hnd : (pyKeys inv.groups).Nodup)
    (hsv : ∀ p ∈ inv.services, p.2.groupnames.Nodup)
    (hss : ∀ p ∈ inv.sub_services, p.2.groupnames.Nodup) :
    inv.normalize_for_json.normalize_for_json = inv.normalize_for_json := by
  unfold Inventory.normalize_for_json
  congr 1
  · rw [pyMem_false_pyDel]
    simp [pyMem, pyGet_pyDel_self hnd]
  · rw [List.map_map]
    refine List.map_congr_left ?_
    intro p hp
    simp only [Function.comp]
    rw [service_remove_groupname_idem p.2 _ (hsv p hp)]
  · rw [List.map_map]
    refine List.map_congr_left ?_
    intro p hp
    simp only [Function.comp]
    rw [sub_remove_groupname_idem p.2 _ (hss p hp)]

/-! C1: determinism of the projection. -/

/-- C1 (amended): the first `get_ansible_json` call may change the
aggregate (its transient-group cleanup re-parents catalog sub-services
whose group list is empty), so its output can differ from the next
call's; but the state after one call is a fixed point, so from the
second call on, calls with the same filter return byte-identical JSON
strings and leave the state untouched. -/
theorem c1_projection_deterministic_after_first_call
    (inv : Inventory) (f : Option InvFilter) (j1 j2 : String)
    (s1 s2 : Inventory) (hwf : wf_for_json inv)
    (h1 : inv.get_ansible_json f = .ok (j1, s1))
    (h2 : s1.get_ansible_json f = .ok (j2, s2)) :
    s2 = s1 ∧ s2.get_ansible_json f = .ok (j2, s2) := by
  obtain ⟨hnd, hsv, hss, hres⟩ := hwf
  by_cases hcs : pyMem inv.services "__RESERVED__" = true
  · rw [get_ansible_json_err inv f (Or.inl hcs)] at h1
    simp at h1
  by_cases hcss : pyMem inv.sub_services "__RESERVED__" = true
  · rw [get_ansible_json_err inv f (Or.inr hcss)] at h1
    simp at h1
  replace hcs : pyMem inv.services "__RESERVED__" = false := by
    simpa using hcs
  replace hcss : pyMem inv.sub_services "__RESERVED__" = false := by
    simpa using hcss
  rw [get_ansible_json_ok inv f hcs hcss hres] at h1
  cases h1
  have hs1srv :
      pyMem inv.normalize_for_json.services "__RESERVED__" = false := by
    unfold Inventory.normalize_for_json
    dsimp only
    rw [pyMem_map]
    exact hcs
  have hs1sub :
      pyMem inv.normalize_for_json.sub_services "__RESERVED__" = false := by
    unfold Inventory.normalize_for_json
    dsimp only
    rw [pyMem_map]
    exact hcss
  have hs1res : reserved_ok inv.normalize_for_json := by
    intro g hg
    unfold Inventory.normalize_for_json at hg
    dsimp only at hg
    rw [pyGet_pyDel_self hnd] at hg
    cases hg
  rw [get_ansible_json_ok _ f hs1srv hs1sub hs1res] at h2
  cases h2
  have hid := normalize_for_json_idem inv hnd hsv hss
  refine ⟨hid, ?_⟩
  rw [hid, get_ansible_json_ok _ f hs1srv hs1sub hs1res, hid]

theorem c1_witness :
    wf_for_json Inventory.base ∧
    Inventory.base.get_ansible_json none = .ok (wjson1.1, wjson1.2) ∧
    wjson1.2.get_ansible_json none = .ok (wjson2.1, wjson2.2) ∧
    (wjson2.2 = wjson1.2 ∧
     wjson2.2.get_ansible_json none = .ok (wjson2.1, wjson2.2)) :=
  ⟨⟨by decide, by decide, by decide, fun g hg => Option.noConfusion hg⟩,
   rfl, rfl,
   c1_projection_deterministic_after_first_call Inventory.base none
     wjson1.1 wjson2.1 wjson1.2 wjson2.2
     ⟨by decide, by decide, by decide, fun g hg => Option.noConfusion hg⟩
     rfl rfl⟩

/-- C1 counterexample: on `sigmaC` (whose catalog sub-service
cinder-api has an empty group list and a nil parent), two consecutive
`get_ansible_json` calls with the same (absent) filter and no other
operation in between return different JSON strings: the first call
re-parents cinder-api while removing the transient group, so the second
call serializes children cinder instead of children null. -/
theorem c1_counterexample :
    sigmaC.get_ansible_json none = .ok (cjson1.1, cjson1.2) ∧
    cjson1.2.get_ansible_json none = .ok (cjson2.1, cjson2.2) ∧
    cjson1.1 ≠ cjson2.1 :=
  ⟨rfl, rfl, by decide⟩

/-! C2: the projection's effect on the aggregate. -/

/-- C2 (amended): a completed `get_ansible_json` call leaves the hosts,
top-level vars, deploy mode and version untouched, and afterwards no
`__RESERVED__` group exists; but the groups, services and sub-services
are only preserved up to the transient-group cleanup: a pre-existing
`__RESERVED__` group is deleted, every service and sub-service group
list drops that name, and (the counterexample's forced exception) a
catalog sub-service with an empty group list is re-parented to its
cataloged owner. -/
theorem c2_projection_state_effect (inv : Inventory) (f : Option InvFilter)
    (j : String) (s' : Inventory)
    (hnd : (pyKeys inv.groups).Nodup) (hres : reserved_ok inv)
    (h : inv.get_ansible_json f = .ok (j, s')) :
    s'.hosts = inv.hosts ∧ s'.vars = inv.vars ∧
    s'.remote_mode = inv.remote_mode ∧ s'.version = inv.version ∧
    s'.groups = pyDel inv.groups "__RESERVED__" ∧
    s'.services = inv.services.map (fun p =>
      (p.1, p.2.remove_groupname "__RESERVED__")) ∧
    s'.sub_services = inv.sub_services.map (fun p =>
      (p.1, p.2.remove_groupname "__RESERVED__")) ∧
    pyGet s'.groups "__RESERVED__" = none := by
  by_cases hcs : pyMem inv.services "__RESERVED__" = true
  · rw [get_ansible_json_err inv f (Or.inl hcs)] at h
    simp at h
  by_cases hcss : pyMem inv.sub_services "__RESERVED__" = true
  · rw [get_ansible_json_err inv f (Or.inr hcss)] at h
    simp at h
  replace hcs : pyMem inv.services "__RESERVED__" = false := by
    simpa using hcs
  replace hcss : pyMem inv.sub_services "__RESERVED__" = false := by
    simpa using hcss
  rw [get_ansible_json_ok inv f hcs hcss hres] at h
  cases h
  refine ⟨rfl, rfl, rfl, rfl, rfl, rfl, rfl, ?_⟩
  exact pyGet_pyDel_self hnd

theorem c2_witness :
    ((pyKeys Inventory.base.groups).Nodup ∧ reserved_ok Inventory.base ∧
     Inventory.base.get_ansible_json none = .ok (wjson1.1, wjson1.2)) ∧
    (wjson1.2.hosts = Inventory.base.hosts ∧
     wjson1.2.vars = Inventory.base.vars ∧
     wjson1.2.remote_mode = Inventory.base.remote_mode ∧
     wjson1.2.version = Inventory.base.version ∧
     wjson1.2.groups = pyDel Inventory.base.groups "__RESERVED__" ∧
     wjson1.2.services = Inventory.base.services.map (fun p =>
       (p.1, p.2.remove_groupname "__RESERVED__")) ∧
     wjson1.2.sub_services = Inventory.base.sub_services.map (fun p =>
       (p.1, p.2.remove_groupname "__RESERVED__")) ∧
     pyGet wjson1.2.groups "__RESERVED__" = none) :=
  ⟨⟨by decide, fun g hg => Option.noConfusion hg, rfl⟩,
   c2_projection_state_effect Inventory.base none wjson1.1 wjson1.2
     (by decide) (fun g hg => Option.noConfusion hg) rfl⟩

/-- C2 counterexample: on `sigmaC` the projection call completes, yet
the aggregate is changed: the parent service name of the sub-service
cinder-api was nil before the call and is cinder afterwards, so the
call does not leave every entity's parent service name equal to its
value before the call. -/
theorem c2_counterexample :
    sigmaC.get_ansible_json none = .ok (cjson1.1, cjson1.2) ∧
    (pyGet sigmaC.sub_services "cinder-api").map
      SubService.get_parent_service_name = some none ∧
    (pyGet cjson1.2.sub_services "cinder-api").map
      SubService.get_parent_service_name = some (some "cinder") :=
  ⟨rfl, by decide, by decide⟩

/-! C9: filter correctness of the projection. -/

theorem pyMem_of_mem {α : Type} {l : List (String × α)} {k : String}
    {v : α} (h : (k, v) ∈ l) : pyMem l k = true := by
  induction l with
  | nil => cases h
  | cons p rest ih =>
      obtain ⟨k0, v0⟩ := p
      rcases List.mem_cons.1 h with h' | h'
      · cases h'
        simp [pyMem, pyGet]
      · by_cases h0 : k0 = k
        · simp [pyMem, pyGet, h0]
        · simpa [pyMem, pyGet, h0] using ih h'

theorem pyGet_foldl_pySet_ne {α β : Type} (keyf : String × α → String)
    (valf : String × α → β) (n : String) :
    ∀ (l : List (String × α)) (jd : List (String × β)),
      (∀ p ∈ l, keyf p ≠ n) →
      pyGet (l.foldl (fun jd p => pySet jd (keyf p) (valf p)) jd) n =
        pyGet jd n := by
  intro l
  induction l with
  | nil => intro jd _; rfl
  | cons p rest ih =>
      intro jd h
      simp only [List.foldl_cons]
      rw [ih _ (fun q hq => h q (List.mem_cons_of_mem _ hq))]
      rw [pyGet_pySet,
          if_neg (fun e : n = keyf p => h p (List.mem_cons_self _ _) e.symm)]

theorem pyGet_foldl_pySet_mem {α β : Type} (keyf : String × α → String)
    (valf : String × α → β) :
    ∀ (l : List (String × α)) (jd : List (String × β)) (q : String × α),
      q ∈ l → (l.map keyf).Nodup →
      pyGet (l.foldl (fun jd p => pySet jd (keyf p) (valf p)) jd)
        (keyf q) = some (valf q) := by
  intro l
  induction l with
  | nil => intro jd q hq _; cases hq
  | cons p rest ih =>
      intro jd q hq hnd
      simp only [List.map_cons, List.nodup_cons] at hnd
      simp only [List.foldl_cons]
      rcases List.mem_cons.1 hq with rfl | hq'
      · rw [pyGet_foldl_pySet_ne keyf valf (keyf q) rest _
          (fun r hr e => hnd.1 (e ▸ List.mem_map_of_mem keyf hr))]
        rw [pyGet_pySet, if_pos rfl]
      · exact ih _ q hq' hnd.2

theorem filter_hosts_singleton (hostnames : List String) (h1 : String) :
    filter_hosts hostnames [h1] =
      (if h1 ∈ hostnames then [h1] else []) := by
  by_cases hm : h1 ∈ hostnames <;> simp [filter_hosts, hm]

/-- C9 (amended): on a well-formed aggregate (entity objects keyed by
their own names, unique group keys, group names disjoint from service
and sub-service names and from the reserved jdict keys), projecting
with a filter whose host list is [h1] puts h1 in a group's hosts entry
exactly when the group is in the effective group filter and h1 is one
of its members (groups outside the filter get an empty hosts list), and
`_meta.hostvars` holds exactly the filtered hostnames that resolve to
an existing host. Without those hypotheses the claim fails; see the
counterexample. -/
theorem c9_filter_correctness (inv : Inventory) (h1 : String)
    (fg : Option (List String))
    (hco : names_coherent inv)
    (hnd : (pyKeys inv.groups).Nodup)
    (hd1 : ∀ n ∈ pyKeys inv.groups, pyMem inv.services n = false)
    (hd2 : ∀ n ∈ pyKeys inv.groups, pyMem inv.sub_services n = false)
    (hmeta : "_meta" ∉ pyKeys inv.groups)
    (hresg : "__RESERVED__" ∉ pyKeys inv.groups)
    (hress : pyMem inv.services "__RESERVED__" = false)
    (hresss : pyMem inv.sub_services "__RESERVED__" = false) :
    inv.get_ansible_json (fhost h1 fg) =
      .ok ((JValue.obj (inv.final_jdict (fhost h1 fg))).dumps,
           inv.normalize_for_json) ∧
    (∀ n g, (n, g) ∈ inv.groups →
      pyGet (inv.final_jdict (fhost h1 fg)) n =
        some (JValue.obj
          [("hosts", .arr
              (if n ∈ inv.effective_groupnames (fhost h1 fg) then
                (if h1 ∈ g.hostnames then [JValue.str h1] else [])
              else [])),
           ("children", .arr []),
           ("vars", jvars g.vars)])) ∧
    pyGet (inv.final_jdict (fhost h1 fg)) "_meta" =
      some (.obj [("hostvars", .obj
        (match pyGet inv.hosts h1 with
         | some host => [(h1, jvars host.vars)]
         | none => []))]) := by
  obtain ⟨hcog, hcos, hcoss⟩ := hco
  refine ⟨?_, ?_, ?_⟩
  · exact get_ansible_json_ok inv _ hress hresss
      (fun g hg => absurd hg (by rw [pyGet_not_keys hresg]; simp))
  · intro n g hmem
    have hnkey : n ∈ pyKeys inv.groups :=
      List.mem_map_of_mem Prod.fst hmem
    have hname : g.name = n := hcog (n, g) hmem
    unfold Inventory.final_jdict Inventory.build_jdict
    dsimp only
    rw [pyGet_pySet, if_neg (fun e : n = "_meta" => hmeta (e ▸ hnkey))]
    rw [pyGet_pySet,
        if_neg (fun e : n = "__RESERVED__" => hresg (e ▸ hnkey))]
    rw [pyGet_foldl_pySet_ne (fun p => p.2.name)
        (fun p => sub_service_json p.2) n inv.sub_services _
        (fun q hq e => by
          have hm : pyMem inv.sub_services q.1 = true := pyMem_of_mem hq
          have hqn : q.1 = n := by rw [← hcoss q hq]; exact e
          rw [hqn, hd2 n hnkey] at hm
          cases hm)]
    rw [pyGet_foldl_pySet_ne (fun p => p.2.name)
        (fun p => service_json p.2) n inv.services _
        (fun q hq e => by
          have hm : pyMem inv.services q.1 = true := pyMem_of_mem hq
          have hqn : q.1 = n := by rw [← hcos q hq]; exact e
          rw [hqn, hd1 n hnkey] at hm
          cases hm)]
    have hkeys : inv.groups.map (fun p => p.2.name) = pyKeys inv.groups :=
      List.map_congr_left (fun p hp => hcog p hp)
    have := pyGet_foldl_pySet_mem (fun p => p.2.name)
      (fun p => group_json p.2 (inv.effective_hostnames (fhost h1 fg))
        (inv.effective_groupnames (fhost h1 fg)))
      inv.groups [] (n, g) hmem (by rw [hkeys]; exact hnd)
    dsimp only at this
    rw [hname] at this
    rw [this]
    unfold group_json HostGroup.get_hostnames HostGroup.get_vars
    rw [hname]
    have hdh : inv.effective_hostnames (fhost h1 fg) = [h1] := rfl
    rw [hdh, filter_hosts_singleton]
    by_cases hin : n ∈ inv.effective_groupnames (fhost h1 fg)
    · rw [if_pos hin, if_pos hin]
      by_cases hmm : h1 ∈ g.hostnames
      · rw [if_pos hmm, if_pos hmm]
        rfl
      · rw [if_neg hmm, if_neg hmm]
        rfl
    · rw [if_neg hin, if_neg hin]
  · unfold Inventory.final_jdict
    dsimp only
    rw [pyGet_pySet, if_pos rfl]
    have hdh : inv.effective_hostnames (fhost h1 fg) = [h1] := rfl
    rw [hdh]
    unfold Inventory.meta_hostvars
    cases hh : inv.get_host h1 with
    | some host =>
        simp only [List.foldl_cons, List.foldl_nil, hh]
        unfold Inventory.get_host at hh
        rw [hh]
        rfl
    | none =>
        simp only [List.foldl_cons, List.foldl_nil, hh]
        unfold Inventory.get_host at hh
        rw [hh]

theorem c9_witness :
    names_coherent defaultInventory ∧
    (defaultInventory.get_ansible_json (fhost "h1" none) =
      .ok ((JValue.obj (defaultInventory.final_jdict
             (fhost "h1" none))).dumps,
           defaultInventory.normalize_for_json) ∧
     pyGet (defaultInventory.final_jdict (fhost "h1" none)) "compute" =
       some (JValue.obj
         [("hosts", .arr
             (if "compute" ∈ defaultInventory.effective_groupnames
                 (fhost "h1" none) then
               (if "h1" ∈ (HostGroup.mk "compute" []
                   [("ansible_become", "yes"),
                    ("ansible_ssh_user", "kolla")]).hostnames then
                 [JValue.str "h1"]
               else [])
             else [])),
          ("children", .arr []),
          ("vars", jvars (HostGroup.mk "compute" []
            [("ansible_become", "yes"),
             ("ansible_ssh_user", "kolla")]).vars)]) ∧
     pyGet (defaultInventory.final_jdict (fhost "h1" none)) "_meta" =
       some (.obj [("hostvars", .obj
         (match pyGet defaultInventory.hosts "h1" with
          | some host => [("h1", jvars host.vars)]
          | none => []))])) := by
  have hthm := c9_filter_correctness defaultInventory "h1" none
    (by unfold names_coherent; decide) (by decide) (by decide) (by decide)
    (by decide) (by decide) (by decide) (by decide)
  exact ⟨by unfold names_coherent; decide, hthm.1,
         hthm.2.1 "compute" _ (by decide), hthm.2.2⟩

/-- C9 counterexample: an inventory can hold a group stored under the
reserved name (the public `add_group("__RESERVED__")` permits it).
Projecting it with the filter whose host list is [h1] puts h1 into that
group's hosts entry even though h1 is not one of its members (the
transient catch-all entry overwrites the group's entry), so the claim
as stated is false without well-formedness restrictions. -/
theorem c9_counterexample :
    "__RESERVED__" ∈ sigma9.effective_groupnames filter_h1 ∧
    pyGet sigma9.groups "__RESERVED__" =
      some (HostGroup.mk "__RESERVED__" []
        [("ansible_become", "yes"), ("ansible_ssh_user", "kolla")]) ∧
    "h1" ∉ (HostGroup.mk "__RESERVED__" []
        [("ansible_become", "yes"),
         ("ansible_ssh_user", "kolla")]).hostnames ∧
    sigma9.get_ansible_json filter_h1 =
      .ok ((JValue.obj (sigma9.final_jdict filter_h1)).dumps,
           sigma9.normalize_for_json) ∧
    pyGet (sigma9.final_jdict filter_h1) "__RESERVED__" =
      some (.obj [("hosts", .arr [.str "h1"]),
                  ("vars", jvars sigma9.reserved_group.get_vars)]) :=
  ⟨by decide, by decide, by decide, rfl, rfl⟩

end Kolla
